import Mathlib

/-!
Shallow embedding of the query-cli certificate-gathering core
(`src/holictic.py` and `src/aws_helper.py`) and proofs about it.

External effects (STS assume-role calls, the ACM paginator) are modelled as
oracle functions supplied to each embedded definition; everything the Python
code itself computes (string matching, filtering, control flow, result
shapes) is translated directly from the source.
-/

namespace QueryCli

/-- `seqAt pat l` holds when the character sequence `pat` occurs at the very
start of `l`.  Building block for Python's substring test `pat in hay`. -/
def seqAt : List Char → List Char → Bool
  | [], _ => true
  | _ :: _, [] => false
  | p :: ps, c :: cs => p == c && seqAt ps cs

/-- `containsSeq pat l` is Python's `pat in hay` over character lists:
`pat` occurs contiguously somewhere in `l`. -/
def containsSeq (pat : List Char) : List Char → Bool
  | [] => pat.isEmpty
  | c :: cs => seqAt pat (c :: cs) || containsSeq pat cs

/-- Python's `account_name.lower()` (ASCII lowering), as a character list. -/
def lowerChars (s : String) : List Char :=
  s.toList.map Char.toLower

theorem seqAt_iff (pat l : List Char) :
    seqAt pat l = true ↔ ∃ t, l = pat ++ t := by
  induction pat generalizing l with
  | nil =>
    simp [seqAt]
  | cons p ps ih =>
    cases l with
    | nil => simp [seqAt]
    | cons c cs =>
      simp only [seqAt, Bool.and_eq_true, beq_iff_eq, ih, List.cons_append,
        List.cons.injEq]
      constructor
      · rintro ⟨rfl, t, rfl⟩
        exact ⟨t, rfl, rfl⟩
      · rintro ⟨t, rfl, rfl⟩
        exact ⟨rfl, t, rfl⟩

theorem containsSeq_iff (pat l : List Char) :
    containsSeq pat l = true ↔ ∃ s t, l = s ++ pat ++ t := by
  induction l with
  | nil =>
    simp only [containsSeq, List.isEmpty_iff]
    constructor
    · rintro rfl
      exact ⟨[], [], rfl⟩
    · rintro ⟨s, t, h⟩
      rcases List.append_eq_nil.mp h.symm with ⟨h1, h2⟩
      rcases List.append_eq_nil.mp h1 with ⟨_, h3⟩
      exact h3
  | cons c cs ih =>
    simp only [containsSeq, Bool.or_eq_true, seqAt_iff, ih]
    constructor
    · rintro (⟨t, ht⟩ | ⟨s, t, hst⟩)
      · exact ⟨[], t, by simpa using ht⟩
      · exact ⟨c :: s, t, by simp [hst]⟩
    · rintro ⟨s, t, h⟩
      cases s with
      | nil =>
        left
        exact ⟨t, by simpa using h⟩
      | cons c2 s2 =>
        rcases List.cons.injEq .. ▸ h with ⟨rfl, h2⟩
        right
        exact ⟨s2, t, h2⟩

theorem containsSeq_eq_false (pat l : List Char)
    (h : ¬ ∃ s t, l = s ++ pat ++ t) : containsSeq pat l = false := by
  rcases hb : containsSeq pat l with _ | _
  · rfl
  · exact absurd ((containsSeq_iff pat l).mp hb) h

theorem noSub_of_false (pat l : List Char) (h : containsSeq pat l = false) :
    ¬ ∃ s t, l = s ++ pat ++ t := by
  intro hex
  rw [(containsSeq_iff pat l).mpr hex] at h
  cases h

/-- A resource record returned by the ACM collector: an opaque mapping of
field name to value (`CertificateSummaryList` entries in the source). -/
abbrev Record := List (String × String)

/-- The credential triple returned by an STS assume-role call
(`Credentials.AccessKeyId / SecretAccessKey / SessionToken`). -/
structure StsCreds where
  accessKeyId : String
  secretAccessKey : String
  sessionToken : String
deriving DecidableEq

/-- A `boto3.Session` built from an assumed role: the source copies exactly
the three credential fields into it (no expiry is retained). -/
structure Session where
  aws_access_key_id : String
  aws_secret_access_key : String
  aws_session_token : String
deriving DecidableEq

/-- Error taxonomy named by the spec for credential minting; the source
itself never classifies into these, it only propagates what the call raised
(see `create_read_only_session`). -/
inductive IdentityError where
  | expiredCredential
  | assumeRoleDenied (msg : String)
  | accountUnreachable (msg : String)
deriving DecidableEq

/-- Module-level constant `account_id` of `aws_helper.py` (line 6). -/
def mgmt_account_id : String := "123456789012"

/-- Module-level constant `account_name` of `aws_helper.py` (line 6). -/
def mgmt_account_name : String := "test-pro-admin"

/-- The management role ARN `f'arn:aws:iam::{account_id}:role/{account_name}'`
built in both the `pro` and `dev` branches of `create_mgmt_session`. -/
def mgmtRoleArn : String :=
  "arn:aws:iam::" ++ mgmt_account_id ++ ":role/" ++ mgmt_account_name

/-- `aws_helper.create_mgmt_session` (lines 10-33).  The external
`client.assume_role` call is the oracle `assumeRole` (role ARN, session
name → credentials or raised error).  The Python `match env` handles only
`'pro'` and `'dev'`; every other tag hits `case _` and raises
`ValueError(f"Invalid environment: {env}")`, modelled as `Except.error`. -/
def create_mgmt_session (assumeRole : String → String → Except String StsCreds)
    (env : String) : Except String Session :=
  match env with
  | "pro" =>
    match assumeRole mgmtRoleArn "mgmt-session" with
    | .ok c => .ok ⟨c.accessKeyId, c.secretAccessKey, c.sessionToken⟩
    | .error e => .error e
  | "dev" =>
    match assumeRole mgmtRoleArn "mgmt-session" with
    | .ok c => .ok ⟨c.accessKeyId, c.secretAccessKey, c.sessionToken⟩
    | .error e => .error e
  | _ => .error ("Invalid environment: " ++ env)

set_option linter.unusedVariables false in
/-- `aws_helper.create_read_only_session` (lines 36-47).  `stsAssume` is the
external `sts_client.assume_role` call made from the management session
(session, role ARN, session name → credentials or raised error).  The wall
clock `now` and the management credential's expiry instant `mgmtExpiry` are
passed in so that expiry-dependence can be stated; the source body never
consults either (there is no expiry check anywhere in the function). -/
def create_read_only_session (now mgmtExpiry : Int)
    (stsAssume : Session → String → String → Except IdentityError StsCreds)
    (mgmt_session : Session) (account_id role_name : String) :
    Except IdentityError Session :=
  let role_arn := "arn:aws:iam::" ++ account_id ++ ":role/" ++ role_name
  match stsAssume mgmt_session role_arn "read-only-session" with
  | .ok c => .ok ⟨c.accessKeyId, c.secretAccessKey, c.sessionToken⟩
  | .error e => .error e

/-- The environment tags accepted by `holictic.main` (lines 202-205): any
other CLI argument prints "Invalid environment" and exits with status 1. -/
def validEnvironments : List String := ["pro", "dev", "pre", "poc"]

/-- Outcome of the effectful body of `get_certificates_for_account` for one
account: the read-only credential mint (`create_read_only_session`) fails,
or the ACM pagination fails, or pagination returns the full certificate
list (possibly empty).  All three are external calls, so the outcome is an
oracle input to the embedding. -/
inductive AccountOutcome where
  | mintFail (err : String)
  | collectFail (err : String)
  | collected (certs : List Record)
deriving DecidableEq

/-- `holictic.get_certificates_for_account` (lines 69-103).  The whole body
sits in one `try`: on success it returns `(account_name, certificates)`;
`except Exception` catches any failure (mint or collection) and returns
`(account_name, [])`.  The function never raises to its caller. -/
def get_certificates_for_account (outcome : AccountOutcome)
    (account_name : String) : String × List Record :=
  match outcome with
  | .collected certs => (account_name, certs)
  | .mintFail _ => (account_name, [])
  | .collectFail _ => (account_name, [])

/-- The per-account keep-condition of the filtering loop in
`gather_product_certificates` (lines 128-135): for `'pro'`, keep the
account unless its lowered display name contains `'dev'`, `'pre'` or
`'poc'`; for `'dev'`/`'pre'`/`'poc'`, keep it unless the lowered name
contains `'pro'`; any other tag adds nothing. -/
def keepAccount (target_env account_name : String) : Bool :=
  if target_env = "pro" then
    !(["dev", "pre", "poc"].any fun env => containsSeq env.toList (lowerChars account_name))
  else if ["dev", "pre", "poc"].contains target_env then
    !(containsSeq "pro".toList (lowerChars account_name))
  else
    false

/-- The account-filtering loop of `gather_product_certificates`
(lines 126-135): builds `filtered_accounts` from `accounts.items()` in
insertion order, keeping entries by `keepAccount`.  Accounts are modelled
as an association list `(account_id, account_name)` preserving the Python
dict's insertion order. -/
def filterAccounts (target_env : String) (accounts : List (String × String)) :
    List (String × String) :=
  accounts.filter fun a => keepAccount target_env a.2

/-- The fan-out over the filtered accounts (lines 157-184): one
`get_certificates_for_account` task per account is submitted to the pool
and every future is awaited via `as_completed`, so exactly one result pair
is recorded per account.  Completion order is nondeterministic in the
source; the embedding records results in dispatch order (the recorded
multiset is the same). -/
def collectAll (outcome : String → AccountOutcome)
    (accounts : List (String × String)) : List (String × List Record) :=
  accounts.map fun a => get_certificates_for_account (outcome a.1) a.2

/-- Observable trace of one `gather_product_certificates` run:
the environment tag of every `create_mgmt_session` invocation, the
per-product recorded result lists, and the products skipped because the
management session could not be created. -/
structure RunTrace where
  mgmtCalls : List String
  reports : List (String × List (String × List Record))
  mgmtFailedProducts : List String

/-- `holictic.gather_product_certificates` (lines 106-193).  Per product:
filter the accounts; if none remain, `continue`; otherwise call
`create_mgmt_session` (recorded in `mgmtCalls`), and on failure log and
`continue` (recorded in `mgmtFailedProducts`), else fan out over the
filtered accounts and record the per-account results.  The catalog is the
parsed `account_lists.json` as an association list of products. -/
def gather_product_certificates
    (assumeRole : String → String → Except String StsCreds)
    (outcome : String → AccountOutcome) :
    List (String × List (String × String)) → String → RunTrace
  | [], _ => ⟨[], [], []⟩
  | (product, accounts) :: rest, target_env =>
    let t := gather_product_certificates assumeRole outcome rest target_env
    let filtered := filterAccounts target_env accounts
    if filtered.isEmpty then t
    else
      match create_mgmt_session assumeRole target_env with
      | .error _ =>
        ⟨target_env :: t.mgmtCalls, t.reports, product :: t.mgmtFailedProducts⟩
      | .ok _ =>
        ⟨target_env :: t.mgmtCalls, (product, collectAll outcome filtered) :: t.reports,
          t.mgmtFailedProducts⟩

/-- Process exit status of `holictic.main`. -/
inductive ExitStatus where
  | success
  | failure
deriving DecidableEq

/-- `holictic.main` (lines 195-209): the target environment is
`sys.argv[1]` when present, else `'pro'`; an unrecognized tag exits with
status 1; otherwise `gather_product_certificates` runs to completion (it
catches management-session failures internally and never raises, given a
readable catalog) and the process exits successfully. -/
def holictic_main (assumeRole : String → String → Except String StsCreds)
    (outcome : String → AccountOutcome)
    (catalog : List (String × List (String × String))) (argv1 : Option String) :
    ExitStatus × Option RunTrace :=
  let target_env := argv1.getD "pro"
  if validEnvironments.contains target_env then
    (ExitStatus.success,
      some (gather_product_certificates assumeRole outcome catalog target_env))
  else
    (ExitStatus.failure, none)

/-! ### Concrete fixtures used by witnesses and counterexamples -/

/-- A concrete credential triple, standing for one STS response. -/
def okStsCreds : StsCreds := ⟨"AKIA", "SECRET", "TOKEN"⟩

/-- An `assume_role` oracle that always succeeds. -/
def okAssume : String → String → Except String StsCreds :=
  fun _ _ => .ok okStsCreds

/-- An `assume_role` oracle that always raises (e.g. `AccessDenied`). -/
def failAssume : String → String → Except String StsCreds :=
  fun _ _ => .error "AccessDenied"

/-- A per-account outcome oracle where every collection succeeds with one
certificate record. -/
def okOutcome : String → AccountOutcome :=
  fun _ => .collected [[("CertificateArn", "arn:aws:acm:1")]]

/-- A per-account outcome oracle where account `222` hits a credential-mint
error and every other account collects one certificate record. -/
def oneFailOutcome : String → AccountOutcome :=
  fun id =>
    if id = "222" then .mintFail "AccessDenied"
    else .collected [[("CertificateArn", "arn:aws:acm:1")]]

/-- A two-account filtered set, as dispatched to the pool. -/
def accountsW : List (String × String) :=
  [("111", "prod-billing"), ("222", "prod-api")]

/-- A catalog with a single product owning one production account. -/
def catOneProduct : List (String × List (String × String)) :=
  [("billing", [("111", "prod-billing")])]

/-- A catalog with two products, each owning one production account. -/
def catTwoProducts : List (String × List (String × String)) :=
  [("billing", [("111", "prod-billing")]), ("payments", [("333", "prod-payments")])]

/-- A concrete management session value. -/
def mgmtSessionFixture : Session := ⟨"AKIA", "SECRET", "TOKEN"⟩

/-- A read-only `assume_role` oracle that always succeeds. -/
def okStsAssume : Session → String → String → Except IdentityError StsCreds :=
  fun _ _ _ => .ok okStsCreds

/-- A read-only `assume_role` oracle that always raises an authorization
rejection. -/
def errStsAssume : Session → String → String → Except IdentityError StsCreds :=
  fun _ _ _ => .error (.assumeRoleDenied "AccessDenied")

/-! ### Claim theorems -/

/-- C1 (counterexample): a credential-mint failure for an account is
recorded exactly like a zero-record success — both produce
`(account_name, [])` with no error description — so a failure IS
represented the same way as an empty result, contrary to the claim. -/
theorem failure_indistinguishable_from_empty :
    get_certificates_for_account (AccountOutcome.mintFail "AccessDenied") "prod-billing" =
      get_certificates_for_account (AccountOutcome.collected []) "prod-billing" ∧
    (get_certificates_for_account (AccountOutcome.mintFail "AccessDenied") "prod-billing").2
      = [] :=
  ⟨rfl, rfl⟩

/-- C1 (amended): every account processed yields a per-account result pair
tagged with its account name — never a silent entry — and the pair is
either the collected record list on success or `(name, [])`, the latter
covering both the zero-record case and every failure (mint or collection),
which are therefore indistinguishable. -/
theorem per_account_result_tagged (o : AccountOutcome) (name : String) :
    (get_certificates_for_account o name).1 = name ∧
    ((∃ certs, o = AccountOutcome.collected certs ∧
        (get_certificates_for_account o name).2 = certs) ∨
      (get_certificates_for_account o name).2 = []) := by
  cases o with
  | collected certs => exact ⟨rfl, Or.inl ⟨certs, rfl, rfl⟩⟩
  | mintFail e => exact ⟨rfl, Or.inr rfl⟩
  | collectFail e => exact ⟨rfl, Or.inr rfl⟩

/-- C10: `get_certificates_for_account` is total at its interface: it never
raises to its caller (the embedding is a total function over every possible
outcome of its effectful body), its first component is exactly the
`account_name` argument, and on any internal failure the second component
is the empty list. -/
theorem get_certificates_total_and_tagged (o : AccountOutcome) (name : String) :
    (get_certificates_for_account o name).1 = name ∧
    ∀ e, (o = AccountOutcome.mintFail e ∨ o = AccountOutcome.collectFail e) →
      (get_certificates_for_account o name).2 = [] := by
  refine ⟨?_, ?_⟩
  · cases o <;> rfl
  · rintro e (rfl | rfl) <;> rfl

/-- Witness for C10 at a concrete collector failure. -/
theorem get_certificates_total_and_tagged_witness :
    ((AccountOutcome.collectFail "Denied" : AccountOutcome) =
        AccountOutcome.mintFail "Denied" ∨
      (AccountOutcome.collectFail "Denied" : AccountOutcome) =
        AccountOutcome.collectFail "Denied") ∧
    (get_certificates_for_account (AccountOutcome.collectFail "Denied") "prod-api").1
      = "prod-api" ∧
    (get_certificates_for_account (AccountOutcome.collectFail "Denied") "prod-api").2
      = [] :=
  ⟨Or.inr rfl,
    (get_certificates_total_and_tagged (AccountOutcome.collectFail "Denied") "prod-api").1,
    (get_certificates_total_and_tagged (AccountOutcome.collectFail "Denied") "prod-api").2
      "Denied" (Or.inr rfl)⟩

/-- C2: for a filtered account set of size N, the fan-out records exactly
one result per account (N results, tagged with the account names in
dispatch order), and changing one account's task outcome (e.g. a
credential-mint failure) leaves every other account's recorded result
unchanged — no cancellation of siblings, no pool abort. -/
theorem fanout_one_result_per_account (accounts : List (String × String))
    (o o2 : String → AccountOutcome) (a : String)
    (hagree : ∀ id, id ≠ a → o id = o2 id) :
    (collectAll o accounts).length = accounts.length ∧
    (collectAll o accounts).map Prod.fst = accounts.map Prod.snd ∧
    ∀ i (h : i < accounts.length) (h1 : i < (collectAll o accounts).length)
      (h2 : i < (collectAll o2 accounts).length),
      (accounts.get ⟨i, h⟩).1 ≠ a →
      (collectAll o accounts).get ⟨i, h1⟩ = (collectAll o2 accounts).get ⟨i, h2⟩ := by
  refine ⟨by simp [collectAll], ?_, ?_⟩
  · simp only [collectAll, List.map_map]
    apply List.map_congr_left
    intro x _
    simp only [Function.comp_apply]
    cases h : o x.1 <;> simp [get_certificates_for_account, h]
  · intro i h h1 h2 hne
    simp only [collectAll, List.get_eq_getElem, List.getElem_map]
    rw [hagree (accounts[i].1) hne]

/-- Witness for C2: account `222` fails to mint its credential while `111`
succeeds; both accounts still get exactly one tagged result, and `111`'s
recorded result is what it would have been had `222` not failed. -/
theorem fanout_one_result_per_account_witness :
    (∀ id, id ≠ "222" → oneFailOutcome id = okOutcome id) ∧
    (collectAll oneFailOutcome accountsW).length = accountsW.length ∧
    (collectAll oneFailOutcome accountsW).map Prod.fst = accountsW.map Prod.snd ∧
    ∀ i (h : i < accountsW.length)
      (h1 : i < (collectAll oneFailOutcome accountsW).length)
      (h2 : i < (collectAll okOutcome accountsW).length),
      (accountsW.get ⟨i, h⟩).1 ≠ "222" →
      (collectAll oneFailOutcome accountsW).get ⟨i, h1⟩ =
        (collectAll okOutcome accountsW).get ⟨i, h2⟩ := by
  have hagree : ∀ id, id ≠ "222" → oneFailOutcome id = okOutcome id := by
    intro id hid
    simp [oneFailOutcome, okOutcome, hid]
  have h := fanout_one_result_per_account accountsW oneFailOutcome okOutcome "222" hagree
  exact ⟨hagree, h.1, h.2.1, h.2.2⟩

/-- C3 (code evaluated at the failing inputs): `pre` and `poc` are declared
valid by `holictic.main`, yet `create_mgmt_session` raises
`ValueError("Invalid environment: ...")` for both, whatever the external
assume-role call would have returned; only `pro` and `dev` can ever mint a
management session. -/
theorem create_mgmt_session_rejects_pre_poc :
    "pre" ∈ validEnvironments ∧ "poc" ∈ validEnvironments ∧
    (∀ ar : String → String → Except String StsCreds,
      create_mgmt_session ar "pre" = .error "Invalid environment: pre") ∧
    (∀ ar : String → String → Except String StsCreds,
      create_mgmt_session ar "poc" = .error "Invalid environment: poc") :=
  ⟨by decide, by decide, fun _ => rfl, fun _ => rfl⟩

theorem keep_pro_iff (name : String) :
    keepAccount "pro" name = true ↔
      ∀ m ∈ (["dev", "pre", "poc"] : List String),
        ¬ ∃ s t, lowerChars name = s ++ m.toList ++ t := by
  simp only [keepAccount, if_pos, Bool.not_eq_true', List.any_eq_false]
  constructor
  · intro h m hm
    exact noSub_of_false _ _ (by simpa using h m hm)
  · intro h m hm
    simpa using containsSeq_eq_false _ _ (h m hm)

theorem keep_nonprod_iff (env name : String)
    (henv : env = "dev" ∨ env = "pre" ∨ env = "poc") :
    keepAccount env name = true ↔
      ¬ ∃ s t, lowerChars name = s ++ ("pro".toList) ++ t := by
  rcases henv with rfl | rfl | rfl <;>
    · unfold keepAccount
      rw [if_neg (by decide), if_pos (by decide), Bool.not_eq_true']
      constructor
      · intro h
        exact noSub_of_false _ _ h
      · intro h
        exact containsSeq_eq_false _ _ h

/-- C4: the Account Filter keeps, for target `pro`, exactly the accounts
whose lowered display name contains none of the markers `dev`/`pre`/`poc`;
for each non-production target (`dev`, `pre`, `poc`) exactly the accounts
whose lowered display name does not contain `pro`; and on the catalog
`{"111": "prod-billing", "222": "dev-billing"}` with target `pro` it
returns only `("111", "prod-billing")`. -/
theorem account_filter_characterization (accounts : List (String × String))
    (p : String × String) (env : String) :
    (p ∈ filterAccounts "pro" accounts ↔
      p ∈ accounts ∧ ∀ m ∈ (["dev", "pre", "poc"] : List String),
        ¬ ∃ s t, lowerChars p.2 = s ++ m.toList ++ t) ∧
    (env ∈ (["dev", "pre", "poc"] : List String) →
      (p ∈ filterAccounts env accounts ↔
        p ∈ accounts ∧ ¬ ∃ s t, lowerChars p.2 = s ++ ("pro".toList) ++ t)) ∧
    filterAccounts "pro" [("111", "prod-billing"), ("222", "dev-billing")] =
      [("111", "prod-billing")] := by
  refine ⟨?_, ?_, ?_⟩
  · simp only [filterAccounts, List.mem_filter, keep_pro_iff]
  · intro hmem
    have henv : env = "dev" ∨ env = "pre" ∨ env = "poc" := by simpa using hmem
    simp only [filterAccounts, List.mem_filter, keep_nonprod_iff env p.2 henv]
  · rfl

/-- Witness for C4 at the spec's concrete scenario, including the
non-production direction at target `dev`. -/
theorem account_filter_characterization_witness :
    ("dev" ∈ (["dev", "pre", "poc"] : List String)) ∧
    filterAccounts "pro" [("111", "prod-billing"), ("222", "dev-billing")] =
      [("111", "prod-billing")] ∧
    (("111", "prod-billing") ∈ filterAccounts "dev" [("111", "prod-billing")] ↔
      ("111", "prod-billing") ∈ ([("111", "prod-billing")] : List (String × String)) ∧
        ¬ ∃ s t, lowerChars "prod-billing" = s ++ ("pro".toList) ++ t) :=
  ⟨by decide,
    (account_filter_characterization [] ("1", "x") "dev").2.2,
    (account_filter_characterization [("111", "prod-billing")]
      ("111", "prod-billing") "dev").2.1 (by decide)⟩

/-- C5 (counterexample): with the management credential's expiry instant at
time 0 and the call made at time 10 (expiry passed), the source still
attempts the external assume-role call and returns its successful result —
it does not fail with `ExpiredCredential` before the call. -/
theorem read_only_no_expiry_check_cex :
    (0 : Int) < 10 ∧
    create_read_only_session 10 0 okStsAssume mgmtSessionFixture "111" "read-only-role" =
      Except.ok ⟨"AKIA", "SECRET", "TOKEN"⟩ ∧
    create_read_only_session 10 0 okStsAssume mgmtSessionFixture "111" "read-only-role" ≠
      Except.error IdentityError.expiredCredential :=
  ⟨by decide, rfl, fun h => Except.noConfusion h⟩

/-- C5 (amended): `create_read_only_session` performs no expiry check — its
result is independent of the wall clock and of the management credential's
expiry instant — and it always attempts the external assume-role call on
the ARN built from `account_id` and `role_name`, propagating that call's
outcome unchanged (so distinct underlying errors stay distinct, but no
local classification into `ExpiredCredential`/`AssumeRoleDenied`/
`AccountUnreachable` is performed). -/
theorem read_only_session_passthrough (n1 e1 n2 e2 : Int)
    (sts : Session → String → String → Except IdentityError StsCreds)
    (mgmt : Session) (aid role : String) :
    create_read_only_session n1 e1 sts mgmt aid role =
      create_read_only_session n2 e2 sts mgmt aid role ∧
    (∀ c, sts mgmt ("arn:aws:iam::" ++ aid ++ ":role/" ++ role) "read-only-session" =
        Except.ok c →
      create_read_only_session n1 e1 sts mgmt aid role =
        Except.ok ⟨c.accessKeyId, c.secretAccessKey, c.sessionToken⟩) ∧
    (∀ err, sts mgmt ("arn:aws:iam::" ++ aid ++ ":role/" ++ role) "read-only-session" =
        Except.error err →
      create_read_only_session n1 e1 sts mgmt aid role = Except.error err) := by
  refine ⟨rfl, ?_, ?_⟩
  · intro c hc
    simp only [create_read_only_session]
    rw [hc]
  · intro err herr
    simp only [create_read_only_session]
    rw [herr]

/-- Witness for C5's amended statement: a concrete rejected call is
propagated verbatim. -/
theorem read_only_session_passthrough_witness :
    errStsAssume mgmtSessionFixture "arn:aws:iam::111:role/read-only-role"
        "read-only-session" =
      Except.error (IdentityError.assumeRoleDenied "AccessDenied") ∧
    create_read_only_session 1 2 errStsAssume mgmtSessionFixture "111" "read-only-role" =
      Except.error (IdentityError.assumeRoleDenied "AccessDenied") :=
  ⟨rfl,
    (read_only_session_passthrough 1 2 1 2 errStsAssume mgmtSessionFixture
      "111" "read-only-role").2.2 (IdentityError.assumeRoleDenied "AccessDenied") rfl⟩

/-- C6 (counterexample): with two products each retaining one account after
filtering, a single run for environment `pro` invokes
`create_mgmt_session` twice for that environment — once per product — so
it is not invoked at most once per environment per run. -/
theorem mgmt_called_per_product_cex :
    (gather_product_certificates okAssume okOutcome catTwoProducts "pro").mgmtCalls =
      ["pro", "pro"] ∧
    ¬ (gather_product_certificates okAssume okOutcome catTwoProducts "pro").mgmtCalls.length
        ≤ 1 := by
  constructor
  · rfl
  · decide

/-- C6 (amended): `create_mgmt_session` is invoked exactly once per product
whose filtered account set is nonempty — so its invocation count per run
equals the number of such products, not at most one per environment — and
every invocation carries the run's target environment tag. -/
theorem mgmt_calls_count_nonempty_products
    (ar : String → String → Except String StsCreds)
    (o : String → AccountOutcome)
    (catalog : List (String × List (String × String))) (env : String) :
    (gather_product_certificates ar o catalog env).mgmtCalls.length =
      (catalog.filter fun p => !(filterAccounts env p.2).isEmpty).length ∧
    ∀ e ∈ (gather_product_certificates ar o catalog env).mgmtCalls, e = env := by
  induction catalog with
  | nil =>
    exact ⟨rfl, by intro e he; cases he⟩
  | cons hd tl ih =>
    obtain ⟨product, accounts⟩ := hd
    rcases hf : (filterAccounts env accounts).isEmpty with _ | _
    · rcases hm : create_mgmt_session ar env with e | s <;>
        · constructor
          · simpa [gather_product_certificates, hf, hm, List.filter_cons] using ih.1
          · intro x hx
            rcases (by simpa [gather_product_certificates, hf, hm] using hx :
                x = env ∨ x ∈ (gather_product_certificates ar o tl env).mgmtCalls) with
              rfl | hx2
            · rfl
            · exact ih.2 x hx2
    · constructor
      · simpa [gather_product_certificates, hf, List.filter_cons] using ih.1
      · intro x hx
        exact ih.2 x (by simpa [gather_product_certificates, hf] using hx)

/-- Witness for C6's amended statement at a concrete two-product catalog. -/
theorem mgmt_calls_count_nonempty_products_witness :
    (gather_product_certificates okAssume okOutcome catTwoProducts "pro").mgmtCalls.length =
      (catTwoProducts.filter fun p => !(filterAccounts "pro" p.2).isEmpty).length ∧
    ∀ e ∈ (gather_product_certificates okAssume okOutcome catTwoProducts "pro").mgmtCalls,
      e = "pro" :=
  mgmt_calls_count_nonempty_products okAssume okOutcome catTwoProducts "pro"

/-- C7 (counterexample): when the management credential for the target
environment cannot be obtained (the assume-role call raises), the run still
exits successfully — the affected product is merely skipped — so a hard
failure is NOT signalled when the environment-level Management Credential
cannot be obtained. -/
theorem run_success_despite_mgmt_failure_cex :
    (holictic_main failAssume okOutcome catOneProduct (some "pro")).1 =
      ExitStatus.success ∧
    (gather_product_certificates failAssume okOutcome catOneProduct "pro").mgmtFailedProducts =
      ["billing"] ∧
    (gather_product_certificates failAssume okOutcome catOneProduct "pro").reports = [] :=
  ⟨rfl, rfl, rfl⟩

/-- C7 (amended): given a readable catalog, the run signals overall success
whenever the environment argument is recognized — including when individual
accounts fail and even when the environment-level Management Credential
cannot be obtained (those products are skipped) — and signals a hard
failure if and only if the environment argument is not one of
`pro`/`dev`/`pre`/`poc`. -/
theorem run_failure_iff_invalid_env
    (ar : String → String → Except String StsCreds)
    (o : String → AccountOutcome)
    (catalog : List (String × List (String × String))) (argv1 : Option String) :
    (holictic_main ar o catalog argv1).1 = ExitStatus.failure ↔
      (argv1.getD "pro") ∉ validEnvironments := by
  unfold holictic_main
  by_cases hm : (argv1.getD "pro") ∈ validEnvironments
  · simp [hm]
  · simp [hm]

/-- Witness for C7's amended statement: an unrecognized tag yields the hard
failure exit. -/
theorem run_failure_iff_invalid_env_witness :
    (holictic_main okAssume okOutcome catOneProduct (some "staging")).1 =
      ExitStatus.failure :=
  (run_failure_iff_invalid_env okAssume okOutcome catOneProduct (some "staging")).mpr
    (by decide)

/-- C8: an account whose lowered display name contains no environment
marker at all — none of `dev`, `pre`, `poc`, and not `pro` either — passes
the Account Filter for every target environment the program accepts. -/
theorem unmarked_account_included_everywhere (env : String)
    (henv : env ∈ validEnvironments) (accounts : List (String × String))
    (a : String × String) (hmem : a ∈ accounts)
    (hno : ∀ m ∈ (["dev", "pre", "poc", "pro"] : List String),
      ¬ ∃ s t, lowerChars a.2 = s ++ m.toList ++ t) :
    a ∈ filterAccounts env accounts := by
  refine List.mem_filter.mpr ⟨hmem, ?_⟩
  have henv4 : env = "pro" ∨ env = "dev" ∨ env = "pre" ∨ env = "poc" := by
    simpa [validEnvironments] using henv
  rcases henv4 with rfl | h3
  · rw [keep_pro_iff]
    intro m hm
    have hm3 : m = "dev" ∨ m = "pre" ∨ m = "poc" := by simpa using hm
    rcases hm3 with rfl | rfl | rfl <;> exact hno _ (by decide)
  · rw [keep_nonprod_iff _ _ h3]
    exact hno "pro" (by decide)

/-- Witness for C8: `billing-main` carries no environment marker and is
kept by the filter for target `dev` (and the hypotheses hold). -/
theorem unmarked_account_included_everywhere_witness :
    ("dev" ∈ validEnvironments) ∧
    ("1", "billing-main") ∈ filterAccounts "dev" [("1", "billing-main")] := by
  refine ⟨by decide, ?_⟩
  refine unmarked_account_included_everywhere "dev" (by decide) _ _ (by decide) ?_
  intro m hm
  have hm4 : m = "dev" ∨ m = "pre" ∨ m = "poc" ∨ m = "pro" := by simpa using hm
  rcases hm4 with rfl | rfl | rfl | rfl <;>
    exact noSub_of_false _ _ (by decide)

theorem filter_keep_idem {α : Type} (p : α → Bool) (l : List α) :
    (l.filter p).filter p = l.filter p := by
  induction l with
  | nil => rfl
  | cons a t ih =>
    rcases h : p a with _ | _
    · simp [List.filter_cons, h, ih]
    · simp [List.filter_cons, h, ih]

/-- C9: the Account Filter is idempotent — re-filtering its own output with
the same target environment returns the output unchanged, for every
catalog-for-product mapping and every target environment. -/
theorem account_filter_idempotent (env : String) (accounts : List (String × String)) :
    filterAccounts env (filterAccounts env accounts) = filterAccounts env accounts := by
  unfold filterAccounts
  exact filter_keep_idem _ _

end QueryCli
